import Mathlib

/-!
# Wayback Snapshot Finder

A shallow embedding of `src/public/app.js` (the snapshot catalog of the page)
and `src/server.js` (the acquisition proxy), and the properties proved of them.

Conventions of the embedding.

* A text the code receives (a cell of the table, the value of a control, a
  target address) is a Lean `String`, read as its list of characters
  (`String.data`). Positions and lengths in JavaScript count UTF-16 code
  units, and a cut by position can split a character in two: what `substring`
  returns, and what is built from it, is kept as a list of code units
  (`CodeUnits`), and `length` is the number of code units.
* The values the catalog works on are typed as the data model describes them:
  a row of the archive's table is an array of four strings.
* Built-ins of the host whose tables are not part of the repository
  (`toLowerCase`, `localeCompare`, `Date`, `encodeURIComponent`) are fields of
  a `Host`; every function that calls one takes the host as its first argument.
* A function that may throw returns an `Outcome` carrying the page state at
  the moment of the throw, so that "the state is left as it was" is a
  statement about the function and not a convention.
-/

namespace Wayback

/-! ## Strings -/

/-- A JavaScript string as the list of its UTF-16 code units; it may hold
half of a surrogate pair. -/
abbrev CodeUnits := List Nat

/-- The UTF-16 code units of one character: one unit up to `U+FFFF`, a
surrogate pair above. -/
def utf16Units (c : Char) : CodeUnits :=
  let n := c.toNat
  if n < 0x10000 then [n]
  else [0xD800 + (n - 0x10000) / 0x400, 0xDC00 + (n - 0x10000) % 0x400]

/-- The UTF-16 code units of a text. -/
def utf16 (s : String) : CodeUnits :=
  s.data.flatMap utf16Units

/-- The property `length` of a string: the number of its code units. -/
def jsLength (s : String) : Nat :=
  (utf16 s).length

/-- The method `String.prototype.substring(start, end)`: the indices count code
units, both are clamped to the length and swapped when `start > end`. -/
def substring (s : String) (start stop : Nat) : CodeUnits :=
  let units := utf16 s
  let n := units.length
  let a := min start n
  let b := min stop n
  let lo := min a b
  let hi := max a b
  (units.drop lo).take (hi - lo)

/-- The characters `String.prototype.trim` removes: ECMAScript `WhiteSpace`
and `LineTerminator`. -/
def isJsSpace (c : Char) : Bool :=
  let n := c.toNat
  n = 0x09 || n = 0x0A || n = 0x0B || n = 0x0C || n = 0x0D || n = 0x20 ||
  n = 0xA0 || n = 0x1680 || (0x2000 ≤ n && n ≤ 0x200A) || n = 0x2028 ||
  n = 0x2029 || n = 0x202F || n = 0x205F || n = 0x3000 || n = 0xFEFF

/-- The method `String.prototype.trim`. -/
def trim (s : String) : String :=
  ⟨((s.data.dropWhile isJsSpace).reverse.dropWhile isJsSpace).reverse⟩

/-- The method `String.prototype.includes` on character lists: `needle` occurs
in `hay` as a contiguous run. -/
def includesChars : List Char → List Char → Bool
  | [], needle => needle.isEmpty
  | c :: cs, needle => needle.isPrefixOf (c :: cs) || includesChars cs needle

/-- The call `hay.includes(needle)`. -/
def includes (hay needle : String) : Bool :=
  includesChars hay.data needle.data

/-- JavaScript truthiness of a string: every string but the empty one. -/
def truthy (s : String) : Bool :=
  !s.data.isEmpty

/-! ## The host -/

/-- The built-ins the code calls whose behaviour is fixed by the host and its
locale rather than by the repository. -/
structure Host where
  /-- The method `String.prototype.toLowerCase`. -/
  toLowerCase : String → String
  /-- The call `a.localeCompare(b)`: negative, zero or positive. -/
  localeCompare : String → String → Int
  /-- The value of `new Date(text).getFullYear()`; `none` is `NaN` (an invalid
  date). -/
  getFullYear : CodeUnits → Option Int
  /-- The function `encodeURIComponent`. -/
  encodeURIComponent : String → String

/-- A number interpolated into a template literal. -/
def numberText : Option Int → String
  | none => "NaN"
  | some n => toString n

/-! ## The catalog (`public/app.js`) -/

/-- A row of the archive's tabular JSON: an array of four strings,
`[timestamp, original, statuscode, mimetype]`; `cK` is `row[K]`. -/
structure Row where
  c0 : String
  c1 : String
  c2 : String
  c3 : String
deriving DecidableEq, Repr

/-- The value `handleSearch` passes to `processSnapshots`: the JSON body of
the proxy's reply. `notArray` stands for every value on which `Array.isArray`
is false; `table rows` is an array of rows, the header included. -/
inductive RawData where
  | notArray
  | table (rows : List Row)
deriving DecidableEq, Repr

/-- A snapshot record, as the object literal of `processSnapshots` builds it.
`date` is the `Date` object, kept as the text it is constructed from; `date`
and `year` are cut out of the timestamp by position. -/
structure Snapshot where
  timestamp : String
  original : String
  statuscode : String
  mimetype : String
  date : CodeUnits
  year : CodeUnits
  archiveUrl : String
deriving DecidableEq, Repr

/-- The text `parseTimestamp` hands to `new Date`. -/
def parseTimestamp (timestamp : String) : CodeUnits :=
  let year := substring timestamp 0 4
  let month := substring timestamp 4 6
  let day := substring timestamp 6 8
  let hour := substring timestamp 8 10
  let minute := substring timestamp 10 12
  let second := substring timestamp 12 14
  year ++ utf16 "-" ++ month ++ utf16 "-" ++ day ++ utf16 "T" ++ hour ++ utf16 ":" ++ minute ++
    utf16 ":" ++ second ++ utf16 "Z"

/-- The arrow function mapped over the data rows in `processSnapshots`. -/
def toSnapshot (row : Row) : Snapshot :=
  { timestamp := row.c0
    original := row.c1
    statuscode := row.c2
    mimetype := row.c3
    date := parseTimestamp row.c0
    year := substring row.c0 0 4
    archiveUrl := "https://web.archive.org/web/" ++ row.c0 ++ "/" ++ row.c1 }

/-- The controls the catalog reads: `statusFilter.value`, `yearFilter.value`,
`searchSnapshotInput.value` and `sortBy.value`. The options of `yearFilter` are
the years of the records, so its value is a list of code units as they are. -/
structure Controls where
  statusValue : String
  yearValue : CodeUnits
  searchInput : String
  sortValue : String
deriving DecidableEq, Repr

/-- The page state the catalog owns: the two module-level arrays, and the two
pieces of the document it rewrites that are tracked here. `none` in a document
field means the markup's initial content has not been overwritten yet. -/
structure Page where
  allSnapshots : List Snapshot
  filteredSnapshots : List Snapshot
  /-- The `value`s of the options of `yearFilter`. -/
  yearOptions : Option (List CodeUnits)
  /-- The content of `dateRange.textContent`. -/
  dateRange : Option String
deriving DecidableEq, Repr

/-- The state when the script has loaded. -/
def Page.initial : Page :=
  { allSnapshots := [], filteredSnapshots := [], yearOptions := none, dateRange := none }

/-- How a call ends: it returns, or it throws an `Error` with a message; in
both cases `page` is the state it leaves. -/
inductive Outcome where
  | returned (page : Page)
  | thrown (message : String) (page : Page)
deriving DecidableEq, Repr

/-- The state a call leaves behind. -/
def Outcome.page : Outcome → Page
  | .returned p => p
  | .thrown _ p => p

/-- The method `Array.prototype.sort(compare)`: the stable sort by a comparator
whose result is negative, zero or positive. An element moves in front of
another only when the comparator puts it strictly before; on a comparator that
is a consistent ordering, which `sort` asks for, this is the one order a stable
sort can produce. -/
def sortWith {α : Type} (compare : α → α → Int) (xs : List α) : List α :=
  xs.insertionSort (fun a b => compare a b ≤ 0)

/-- The method `Array.prototype.sort()` on strings: ascending order of the code
units. -/
def sortStrings (xs : List CodeUnits) : List CodeUnits :=
  xs.insertionSort (fun a b => a ≤ b)

/-- The option values `populateYearFilter` writes: `all`, then the distinct
years in descending order. -/
def yearOptionsOf (all : List Snapshot) : List CodeUnits :=
  let years := (sortStrings (all.map (fun s => s.year)).eraseDups).reverse
  utf16 "all" :: years

/-- The function `populateYearFilter`. -/
def populateYearFilter (p : Page) : Page :=
  { p with yearOptions := some (yearOptionsOf p.allSnapshots) }

/-- The function `updateStats`, for the date-range label: written only when
the full set is not empty, from `allSnapshots[allSnapshots.length - 1]`
(`getLast?`) and `allSnapshots[0]` (`head?`), which both exist exactly when
the length is positive. -/
def updateStats (H : Host) (p : Page) : Page :=
  match p.allSnapshots.getLast?, p.allSnapshots.head? with
  | some last, some first =>
    let oldestDate := last.date
    let newestDate := first.date
    let oldestYear := H.getFullYear oldestDate
    let newestYear := H.getFullYear newestDate
    { p with dateRange := some (numberText oldestYear ++ " - " ++ numberText newestYear) }
  | _, _ => p

/-- The function `renderTable`: both of its branches end in `updateStats`; the
table rows it writes are not part of the tracked state. -/
def renderTable (H : Host) (p : Page) : Page :=
  updateStats H p

/-- The comparator of `applySorting`. -/
def sortComparator (H : Host) (sortValue : String) (a b : Snapshot) : Int :=
  if sortValue = "newest" then H.localeCompare b.timestamp a.timestamp
  else if sortValue = "oldest" then H.localeCompare a.timestamp b.timestamp
  else if sortValue = "status" then H.localeCompare a.statuscode b.statuscode
  else 0

/-- The function `applySorting`. -/
def applySorting (H : Host) (c : Controls) (p : Page) : Page :=
  let sortValue := c.sortValue
  renderTable H
    { p with filteredSnapshots := sortWith (sortComparator H sortValue) p.filteredSnapshots }

/-- The predicate of the `filter` call in `applyFilters`. -/
def keeps (H : Host) (statusValue : String) (yearValue : CodeUnits) (searchValue : String)
    (snapshot : Snapshot) : Bool :=
  if statusValue ≠ "all" ∧ snapshot.statuscode ≠ statusValue then false
  else if yearValue ≠ utf16 "all" ∧ snapshot.year ≠ yearValue then false
  else if truthy searchValue ∧ ¬ includes (H.toLowerCase snapshot.original) searchValue then false
  else true

/-- The function `applyFilters`. -/
def applyFilters (H : Host) (c : Controls) (p : Page) : Page :=
  let statusValue := c.statusValue
  let yearValue := c.yearValue
  let searchValue := trim (H.toLowerCase c.searchInput)
  applySorting H c
    { p with filteredSnapshots := p.allSnapshots.filter (keeps H statusValue yearValue searchValue) }

/-- The function `processSnapshots`. -/
def processSnapshots (H : Host) (c : Controls) (data : RawData) (p : Page) : Outcome :=
  match data with
  | .notArray => .thrown "No snapshots found for this URL" p
  | .table table =>
    if table.length < 2 then .thrown "No snapshots found for this URL" p
    else
      let rows := table.drop 1
      let p1 := { p with allSnapshots := rows.map toSnapshot }
      let p2 := populateYearFilter p1
      let p3 := { p2 with filteredSnapshots := p2.allSnapshots }
      .returned (applySorting H c p3)

/-- The first step of `handleSearch`: the trimmed input is checked before
anything is sent. -/
inductive SearchStart where
  /-- The call `showError(message)` and return: no request is made. -/
  | rejected (message : String)
  /-- The page goes on to `fetch(url)`. -/
  | request (url : String)
deriving DecidableEq, Repr

/-- The function `handleSearch` up to the `fetch` call, on the content of
`urlInput`. -/
def handleSearch (H : Host) (input : String) : SearchStart :=
  let url := trim input
  if !truthy url then .rejected "Please enter a URL"
  else .request ("/api/snapshots?url=" ++ H.encodeURIComponent url)

/-- The calls the page makes on the catalog, each read with the controls as
they stand when it runs. -/
inductive Call where
  | processSnapshots (data : RawData)
  | applyFilters
  | applySorting
deriving DecidableEq, Repr

/-- The state after one call; a call that throws leaves the state it had
reached. -/
def Call.run (H : Host) (c : Controls) : Call → Page → Page
  | .processSnapshots data, p => (Wayback.processSnapshots H c data p).page
  | .applyFilters, p => Wayback.applyFilters H c p
  | .applySorting, p => Wayback.applySorting H c p

/-- The state after a sequence of calls, from left to right. -/
def runCalls (H : Host) (calls : List (Controls × Call)) (p : Page) : Page :=
  calls.foldl (fun q step => step.2.run H step.1 q) p

/-! ## The acquisition proxy (`server.js`) -/

/-- A parsed JSON value. Numbers are kept as integers: the proxy never looks
inside a value further than `Array.isArray` and `length`. -/
inductive Json where
  | null
  | bool (b : Bool)
  | number (n : Int)
  | string (s : String)
  | array (items : List Json)
  | object (members : List (String × Json))
deriving Repr

/-- The test `Array.isArray(result) && result.length >= 2`, negated in the
source. -/
def Json.hasRows : Json → Bool
  | .array items => 2 ≤ items.length
  | _ => false

/-- What the archive service did with one request: the request failed on the
network (`error` event), or a response ended with a status code and a body;
`parsed` is what `JSON.parse` makes of the body, `none` when it throws. -/
inductive Upstream where
  | failed (message : String)
  | ended (statusCode : Nat) (parsed : Option Json)
deriving Repr

/-- The two arguments of `callback(error, data)`: the message of the error or
`null`, and the data or `null`. -/
structure CallbackArgs where
  error : Option String
  data : Option Json
deriving Repr

/-- The first `replace` of the cleaning step, `/^https?:\/\//`. -/
def stripScheme (s : List Char) : List Char :=
  if "https://".data.isPrefixOf s then s.drop 8
  else if "http://".data.isPrefixOf s then s.drop 7
  else s

/-- The second `replace` of the cleaning step, `/\/$/`. -/
def stripTrailingSlash (s : List Char) : List Char :=
  if s.getLast? = some '/' then s.dropLast else s

/-- The value of `cleanUrl` in `fetchWaybackData`. -/
def cleanUrl (targetUrl : String) : String :=
  ⟨stripTrailingSlash (stripScheme targetUrl.data)⟩

/-- The value of `apiUrl` in `fetchWaybackData`. -/
def apiUrl (H : Host) (targetUrl : String) : String :=
  "http://web.archive.org/cdx/search/cdx?url=" ++ H.encodeURIComponent (cleanUrl targetUrl) ++
    "&output=json&fl=timestamp,original,statuscode,mimetype&limit=1000"

/-- The handler of the response's `end` event. -/
def onEnd (statusCode : Nat) (parsed : Option Json) : CallbackArgs :=
  if statusCode ≠ 200 then ⟨some ("API returned status " ++ toString statusCode), none⟩
  else
    match parsed with
    | some result =>
      if !result.hasRows then ⟨some "No snapshots found for this URL", none⟩
      else ⟨none, some result⟩
    | none => ⟨some "Invalid API response", none⟩

/-- The function `fetchWaybackData`: the requests it sends to the archive
service, and the arguments it calls back with. `net` answers a request by its
address. -/
def fetchWaybackData (H : Host) (net : String → Upstream) (targetUrl : String) :
    List String × CallbackArgs :=
  let url := apiUrl H targetUrl
  match net url with
  | .ended statusCode parsed => ([url], onEnd statusCode parsed)
  | .failed message => ([url], ⟨some message, none⟩)

/-- A request as the server's handler reads it: `parsedUrl.pathname`,
`req.method` and `parsedUrl.query.url` (`none` when the parameter is absent). -/
structure Request where
  pathname : String
  method : String
  queryUrl : Option String
deriving Repr

/-- The body of a JSON reply: `JSON.stringify` of the object whose one member
`error` is the message, or of the data. -/
inductive ReplyBody where
  | error (message : String)
  | data (value : Json)
deriving Repr

/-- What the handler answers: a JSON reply with a status, or the static file
at a path below `public`. -/
inductive Reply where
  | json (status : Nat) (body : ReplyBody)
  | file (filePath : String)
deriving Repr

/-- The effect of handling one request: the requests sent to the archive
service, and the reply. -/
structure Handled where
  outbound : List String
  reply : Reply
deriving Repr

/-- The request handler passed to `http.createServer`. -/
def handleRequest (H : Host) (net : String → Upstream) (req : Request) : Handled :=
  if req.pathname = "/api/snapshots" ∧ req.method = "GET" then
    match req.queryUrl with
    | none => ⟨[], .json 400 (.error "Missing URL parameter")⟩
    | some targetUrl =>
      if !truthy targetUrl then ⟨[], .json 400 (.error "Missing URL parameter")⟩
      else
        match fetchWaybackData H net targetUrl with
        | (sent, ⟨some message, _⟩) => ⟨sent, .json 500 (.error message)⟩
        | (sent, ⟨none, data⟩) => ⟨sent, .json 200 (.data (data.getD .null))⟩
  else
    let filePath := if req.pathname = "/" then "/index.html" else req.pathname
    ⟨[], .file filePath⟩

/-! ## A reference host and the scenario of the specification -/

/-- Lower-casing of the letters `A` to `Z`. -/
def asciiLower (s : String) : String :=
  ⟨s.data.map Char.toLower⟩

/-- Comparison by the order of the code units, the order of the operators `<`
and `>` on strings. -/
def codeUnitCompare (a b : String) : Int :=
  if utf16 a < utf16 b then -1 else if utf16 a = utf16 b then 0 else 1

/-- The year a date-time text `YYYY-...` starts with. -/
def leadingYear (text : CodeUnits) : Option Int :=
  let ds := text.take 4
  if ds.length = 4 ∧ ds.all (fun u => 48 ≤ u ∧ u ≤ 57) then
    some (ds.foldl (fun n u => 10 * n + ((u : Int) - 48)) 0)
  else none

/-- The hexadecimal digit of a number below 16. -/
def hexDigit (n : Nat) : Char :=
  "0123456789ABCDEF".data.getD n '0'

/-- One byte, percent-encoded. -/
def percentByte (b : UInt8) : List Char :=
  ['%', hexDigit (b.toNat / 16), hexDigit (b.toNat % 16)]

/-- The characters `encodeURIComponent` leaves as they are. -/
def isUriUnreserved (c : Char) : Bool :=
  c.isAlphanum || "-_.!~*()".data.contains c || c.toNat = 0x27

/-- Percent-encoding of the UTF-8 bytes of every reserved character. -/
def percentEncode (s : String) : String :=
  ⟨s.data.flatMap (fun c =>
    if isUriUnreserved c then [c] else (String.utf8EncodeChar c).flatMap percentByte)⟩

/-- A host in the UTC time zone, with the case mapping of the ASCII letters
and the collation of the code-unit order: what every host does on the digit
timestamps, the ASCII texts and the well-formed dates used below. -/
def utcHost : Host :=
  { toLowerCase := asciiLower
    localeCompare := codeUnitCompare
    getFullYear := leadingYear
    encodeURIComponent := percentEncode }

/-- The header row of the archive's table. -/
def headerRow : Row :=
  ⟨"timestamp", "original", "statuscode", "mimetype"⟩

/-- The Raw Record of the specification's scenario. -/
def scenarioData : RawData :=
  .table [headerRow,
    ⟨"20200101000000", "http://example.com", "200", "text/html"⟩,
    ⟨"20210601120000", "http://example.com", "404", "text/html"⟩]

/-- The controls as the page loads them: nothing filtered, newest first. -/
def defaultControls : Controls :=
  ⟨"all", utf16 "all", "", "newest"⟩

/-- The page after the scenario's Raw Record has been processed. -/
def scenarioPage : Page :=
  (processSnapshots utcHost defaultControls scenarioData Page.initial).page

/-! ## Definitions used to state the properties -/

/-- The date-range text after `updateStats`, from the full set and the text
before. -/
def labelAfter (H : Host) (all : List Snapshot) (before : Option String) : Option String :=
  match all.getLast?, all.head? with
  | some last, some first =>
    some (numberText (H.getFullYear last.date) ++ " - " ++ numberText (H.getFullYear first.date))
  | _, _ => before

/-- A JSON value that is an array all of whose elements are arrays. -/
def Json.isArrayOfArrays : Json → Bool
  | .array items => items.all (fun item => match item with
    | .array _ => true
    | _ => false)
  | _ => false

/-- The callback was given no error and the data. -/
def CallbackArgs.isSuccess (args : CallbackArgs) : Bool :=
  args.error.isNone && args.data.isSome

/-- The text the search predicate looks for: `searchSnapshotInput.value`,
lower-cased, then trimmed. -/
def searchValue (H : Host) (c : Controls) : String :=
  trim (H.toLowerCase c.searchInput)

/-- A record passes the filters as the code applies them: each of the three
predicates holds or is switched off, the search predicate being switched off
when the lower-cased, trimmed search text is empty. -/
def Passes (H : Host) (c : Controls) (r : Snapshot) : Prop :=
  (c.statusValue = "all" ∨ r.statuscode = c.statusValue) ∧
  (c.yearValue = utf16 "all" ∨ r.year = c.yearValue) ∧
  (searchValue H c = "" ∨ (searchValue H c).data <:+: (H.toLowerCase r.original).data)

instance (H : Host) (c : Controls) (r : Snapshot) : Decidable (Passes H c r) := by
  unfold Passes
  infer_instance

/-- A record passes the filters as the specification words them: the search
predicate asks for the lower-cased search text as it was typed, and is switched off only
when that text is empty. -/
def StatedPasses (H : Host) (c : Controls) (r : Snapshot) : Prop :=
  (c.statusValue = "all" ∨ r.statuscode = c.statusValue) ∧
  (c.yearValue = utf16 "all" ∨ r.year = c.yearValue) ∧
  (c.searchInput = "" ∨ (H.toLowerCase c.searchInput).data <:+: (H.toLowerCase r.original).data)

instance (H : Host) (c : Controls) (r : Snapshot) : Decidable (StatedPasses H c r) := by
  unfold StatedPasses
  infer_instance

/-- The host's collation puts the timestamps of the records of `view` in the
lexicographic order of their code units, the order of `<` on strings:
`localeCompare` is negative exactly on a smaller text and zero exactly on an
equal one. Fixed-width digit timestamps are collated so. -/
def CollatesByCodeUnits (H : Host) (view : List Snapshot) : Prop :=
  ∀ a ∈ view, ∀ b ∈ view,
    (H.localeCompare a.timestamp b.timestamp < 0 ↔ utf16 a.timestamp < utf16 b.timestamp) ∧
    (H.localeCompare a.timestamp b.timestamp = 0 ↔ utf16 a.timestamp = utf16 b.timestamp)

/-- The two records of the scenario in the order of the table, as full set
and as view set. -/
def scenarioUnsorted : Page :=
  { scenarioPage with filteredSnapshots := scenarioPage.allSnapshots }

/-- Comparison that looks at the letters before their case and puts a
lower-case letter before its capital, as the collation of a host with locale
data does on ASCII letters: `a`, then `b`, then `B`. -/
def caseLastCompare (a b : String) : Int :=
  let la := (asciiLower a).data
  let lb := (asciiLower b).data
  if la < lb then -1
  else if lb < la then 1
  else if b.data < a.data then -1
  else if a.data < b.data then 1
  else 0

/-- A host as `utcHost`, with the collation of letters before case. -/
def localeHost : Host :=
  { utcHost with localeCompare := caseLastCompare }

/-- Controls that filter nothing and name no sort mode the code knows: the
view set keeps the order of the table. -/
def unsortedControls : Controls :=
  ⟨"all", utf16 "all", "", "unsorted"⟩

/-- A table of four captures, two at each of two times. -/
def tiedData : RawData :=
  .table [headerRow,
    ⟨"20210601120000", "http://example.com", "404", "text/html"⟩,
    ⟨"20200101000000", "http://example.com", "200", "text/html"⟩,
    ⟨"20210601120000", "http://example.com/about", "200", "text/html"⟩,
    ⟨"20200101000000", "http://example.com/about", "301", "text/html"⟩]

/-- The page after `tiedData` has been processed, the view set in the order
of the table. -/
def tiedPage : Page :=
  (processSnapshots utcHost unsortedControls tiedData Page.initial).page

/-- A table whose three data rows carry the timestamps `b`, `B` and `a`. -/
def lettersData : RawData :=
  .table [headerRow,
    ⟨"b", "http://example.com", "200", "text/html"⟩,
    ⟨"B", "http://example.com", "200", "text/html"⟩,
    ⟨"a", "http://example.com", "200", "text/html"⟩]

/-- The page after `lettersData` has been processed, the view set in the
order of the table. -/
def lettersPage : Page :=
  (processSnapshots localeHost unsortedControls lettersData Page.initial).page

/-! ## What the calls do to the two record sets -/

theorem updateStats_allSnapshots (H : Host) (p : Page) :
    (updateStats H p).allSnapshots = p.allSnapshots := by
  unfold updateStats
  split <;> rfl

theorem updateStats_filteredSnapshots (H : Host) (p : Page) :
    (updateStats H p).filteredSnapshots = p.filteredSnapshots := by
  unfold updateStats
  split <;> rfl

theorem applySorting_allSnapshots (H : Host) (c : Controls) (p : Page) :
    (applySorting H c p).allSnapshots = p.allSnapshots := by
  simp [applySorting, renderTable, updateStats_allSnapshots]

theorem applySorting_filteredSnapshots (H : Host) (c : Controls) (p : Page) :
    (applySorting H c p).filteredSnapshots =
      sortWith (sortComparator H c.sortValue) p.filteredSnapshots := by
  simp [applySorting, renderTable, updateStats_filteredSnapshots]

theorem applyFilters_allSnapshots (H : Host) (c : Controls) (p : Page) :
    (applyFilters H c p).allSnapshots = p.allSnapshots := by
  simp [applyFilters, applySorting_allSnapshots]

theorem applyFilters_filteredSnapshots (H : Host) (c : Controls) (p : Page) :
    (applyFilters H c p).filteredSnapshots =
      sortWith (sortComparator H c.sortValue)
        (p.allSnapshots.filter
          (keeps H c.statusValue c.yearValue (trim (H.toLowerCase c.searchInput)))) := by
  simp [applyFilters, applySorting_filteredSnapshots]

theorem sortWith_perm {α : Type} (compare : α → α → Int) (xs : List α) :
    (sortWith compare xs).Perm xs :=
  List.perm_insertionSort _ xs

/-- C4: on an input that is not an array, or is an array of fewer than two
rows, `processSnapshots` throws `No snapshots found for this URL`, and the
state it leaves is the state it was called in: the full set and the view set
are what they were. -/
theorem processSnapshots_rejects (H : Host) (c : Controls) (data : RawData) (p : Page)
    (h : data = .notArray ∨ ∃ rows, data = .table rows ∧ rows.length < 2) :
    processSnapshots H c data p = .thrown "No snapshots found for this URL" p ∧
      (processSnapshots H c data p).page.allSnapshots = p.allSnapshots ∧
      (processSnapshots H c data p).page.filteredSnapshots = p.filteredSnapshots := by
  rcases h with h | ⟨rows, h, hlen⟩
  · subst h
    simp [processSnapshots, Outcome.page]
  · subst h
    simp [processSnapshots, hlen, Outcome.page]

theorem processSnapshots_rejects_witness :
    processSnapshots utcHost defaultControls (.table [headerRow]) scenarioPage =
        .thrown "No snapshots found for this URL" scenarioPage ∧
      (processSnapshots utcHost defaultControls (.table [headerRow]) scenarioPage).page.allSnapshots
        = scenarioPage.allSnapshots ∧
      (processSnapshots utcHost defaultControls (.table [headerRow])
        scenarioPage).page.filteredSnapshots = scenarioPage.filteredSnapshots :=
  processSnapshots_rejects utcHost defaultControls (.table [headerRow]) scenarioPage
    (Or.inr ⟨[headerRow], rfl, by decide⟩)

/-! ## Normalisation -/

theorem substring_zero (s : String) (n : Nat) :
    substring s 0 n = (utf16 s).take n := by
  simp [substring, List.take_take]

theorem processSnapshots_returns (H : Host) (c : Controls) (rows : List Row) (p : Page)
    (hrows : 2 ≤ rows.length) :
    ∃ q, processSnapshots H c (.table rows) p = .returned q ∧
      q.allSnapshots = (rows.drop 1).map toSnapshot := by
  refine ⟨applySorting H c
    { populateYearFilter { p with allSnapshots := (rows.drop 1).map toSnapshot } with
      filteredSnapshots := (rows.drop 1).map toSnapshot }, ?_, ?_⟩
  · simp only [processSnapshots, if_neg (Nat.not_lt.mpr hrows)]
    rfl
  · simp [applySorting_allSnapshots, populateYearFilter]

/-- C3, amended: for a table of a header and at least one data row,
`processSnapshots` returns, and the full set it leaves has one record per data
row, in the order of the rows, each carrying the four fields of its row, with
`year` the first four code units of `timestamp`, which are its first four
characters when these are in the basic plane. The timestamp is the row's first
field as it came: its length is 14 when the length of the row's field is. -/
theorem processSnapshots_records (H : Host) (c : Controls) (rows : List Row) (p : Page)
    (hrows : 2 ≤ rows.length) :
    ∃ q, processSnapshots H c (.table rows) p = .returned q ∧
      q.allSnapshots.length = rows.length - 1 ∧
      q.allSnapshots.map (fun r => (r.timestamp, r.original, r.statuscode, r.mimetype)) =
        (rows.drop 1).map (fun row => (row.c0, row.c1, row.c2, row.c3)) ∧
      (∀ r ∈ q.allSnapshots, r.year = (utf16 r.timestamp).take 4) ∧
      ((∀ row ∈ rows.drop 1, jsLength row.c0 = 14) →
        ∀ r ∈ q.allSnapshots, jsLength r.timestamp = 14) := by
  obtain ⟨q, hq, hall⟩ := processSnapshots_returns H c rows p hrows
  refine ⟨q, hq, ?_, ?_, ?_, ?_⟩
  · simp [hall]
  · simp [hall, toSnapshot, Function.comp_def]
  · intro r hr
    rw [hall] at hr
    obtain ⟨row, -, rfl⟩ := List.mem_map.mp hr
    exact substring_zero row.c0 4
  · intro h14 r hr
    rw [hall] at hr
    obtain ⟨row, hrow, rfl⟩ := List.mem_map.mp hr
    exact h14 row hrow

theorem processSnapshots_records_witness :
    ∃ q, processSnapshots utcHost defaultControls scenarioData Page.initial = .returned q ∧
      q.allSnapshots.length = 3 - 1 ∧
      q.allSnapshots.map (fun r => (r.timestamp, r.original, r.statuscode, r.mimetype)) =
        [("20200101000000", "http://example.com", "200", "text/html"),
         ("20210601120000", "http://example.com", "404", "text/html")] ∧
      (∀ r ∈ q.allSnapshots, r.year = (utf16 r.timestamp).take 4) ∧
      ((∀ row ∈ [(⟨"20200101000000", "http://example.com", "200", "text/html"⟩ : Row),
          ⟨"20210601120000", "http://example.com", "404", "text/html"⟩], jsLength row.c0 = 14) →
        ∀ r ∈ q.allSnapshots, jsLength r.timestamp = 14) :=
  processSnapshots_records utcHost defaultControls
    [headerRow, ⟨"20200101000000", "http://example.com", "200", "text/html"⟩,
      ⟨"20210601120000", "http://example.com", "404", "text/html"⟩] Page.initial (by decide)

/-- C3, counterexample: a table of the header and one data row whose first
field is `2020` is processed into one record whose timestamp has length 4,
not 14. -/
theorem processSnapshots_short_timestamp :
    (2 ≤ [headerRow, (⟨"2020", "http://example.com", "200", "text/html"⟩ : Row)].length) ∧
      ∃ q, processSnapshots utcHost defaultControls
          (.table [headerRow, ⟨"2020", "http://example.com", "200", "text/html"⟩])
          Page.initial = .returned q ∧
        q.allSnapshots.map (fun r => jsLength r.timestamp) = [4] ∧
        ¬ ∀ r ∈ q.allSnapshots, jsLength r.timestamp = 14 := by
  refine ⟨by decide, _, rfl, by decide, by decide⟩

/-- The cut by code units: of a timestamp that begins with the character
`U+1F600`, two code units long, and goes on with `2020abc`, the year is the
surrogate pair and `20`. -/
theorem toSnapshot_year_outside_basic_plane :
    (toSnapshot ⟨⟨[Char.ofNat 0x1F600, '2', '0', '2', '0', 'a', 'b', 'c']⟩,
        "http://example.com", "200", "text/html"⟩).year = [0xD83D, 0xDE00, 0x32, 0x30] ∧
      jsLength ⟨[Char.ofNat 0x1F600, '2', '0', '2', '0', 'a', 'b', 'c']⟩ = 9 := by
  decide

/-! ## The view set and the full set -/

theorem updateStats_eq (H : Host) (p : Page) :
    updateStats H p = { p with dateRange := labelAfter H p.allSnapshots p.dateRange } := by
  unfold updateStats labelAfter
  cases h1 : p.allSnapshots.getLast? <;> cases h2 : p.allSnapshots.head? <;> simp

theorem labelAfter_idem (H : Host) (all : List Snapshot) (before : Option String) :
    labelAfter H all (labelAfter H all before) = labelAfter H all before := by
  unfold labelAfter
  cases h1 : all.getLast? <;> cases h2 : all.head? <;> simp

/-- C10: `applyFilters` called a second time with the same controls leaves the
state the first call left, the view set with the same records in the same
order; and what the first call leaves does not depend on the view set it
found. -/
theorem applyFilters_idempotent (H : Host) (c : Controls) (p : Page) (view : List Snapshot) :
    applyFilters H c (applyFilters H c p) = applyFilters H c p ∧
      (applyFilters H c (applyFilters H c p)).filteredSnapshots
        = (applyFilters H c p).filteredSnapshots ∧
      applyFilters H c { p with filteredSnapshots := view } = applyFilters H c p := by
  have h : applyFilters H c (applyFilters H c p) = applyFilters H c p := by
    simp [applyFilters, applySorting, renderTable, updateStats_eq, labelAfter_idem]
  exact ⟨h, congrArg Page.filteredSnapshots h, rfl⟩

theorem call_run_allSnapshots_filtered (H : Host) (c : Controls) (call : Call) (p : Page)
    (h : p.filteredSnapshots.Subperm p.allSnapshots) :
    (call.run H c p).filteredSnapshots.Subperm (call.run H c p).allSnapshots := by
  cases call with
  | processSnapshots data =>
    cases data with
    | notArray => simpa [Call.run, processSnapshots, Outcome.page] using h
    | table rows =>
      by_cases hlen : rows.length < 2
      · simpa [Call.run, processSnapshots, hlen, Outcome.page] using h
      · simp only [Call.run, processSnapshots, if_neg hlen, Outcome.page,
          applySorting_allSnapshots, applySorting_filteredSnapshots]
        exact (sortWith_perm _ _).subperm
  | applyFilters =>
    simp only [Call.run, applyFilters_allSnapshots, applyFilters_filteredSnapshots]
    exact (sortWith_perm _ _).subperm.trans (List.filter_sublist _).subperm
  | applySorting =>
    simp only [Call.run, applySorting_allSnapshots, applySorting_filteredSnapshots]
    exact (sortWith_perm _ _).subperm.trans h

theorem runCalls_subperm (H : Host) (calls : List (Controls × Call)) (p : Page)
    (h : p.filteredSnapshots.Subperm p.allSnapshots) :
    (runCalls H calls p).filteredSnapshots.Subperm (runCalls H calls p).allSnapshots := by
  induction calls generalizing p with
  | nil => exact h
  | cons step rest ih =>
    exact ih _ (call_run_allSnapshots_filtered H step.1 step.2 p h)

/-- C9: after any sequence of `processSnapshots`, `applyFilters` and
`applySorting` calls from the initial state, whatever the controls and the
data at each call, every record of the view set is a record of the full set,
no record occurs more often in the view set than in the full set, and the
view set is no longer than the full set. -/
theorem view_within_full (H : Host) (calls : List (Controls × Call)) :
    (∀ r ∈ (runCalls H calls Page.initial).filteredSnapshots,
        r ∈ (runCalls H calls Page.initial).allSnapshots) ∧
      (∀ r, (runCalls H calls Page.initial).filteredSnapshots.count r
        ≤ (runCalls H calls Page.initial).allSnapshots.count r) ∧
      (runCalls H calls Page.initial).filteredSnapshots.length
        ≤ (runCalls H calls Page.initial).allSnapshots.length := by
  have h := runCalls_subperm H calls Page.initial (List.Subperm.refl _)
  exact ⟨fun r hr => h.subset hr, fun r => h.count_le r, h.length_le⟩

/-- C8, the code at the specification's scenario: on a host where the two
dates fall in the years 2020 and 2021, the date-range text after
`processSnapshots`, and after a following `applyFilters`, is `2021 - 2020`:
the year read from the last record comes first, the year read from the first
record second, while the earliest record of the scenario is the first one. -/
theorem dateRange_scenario (H : Host) (c : Controls) (p : Page)
    (h2020 : H.getFullYear (utf16 "2020-01-01T00:00:00Z") = some 2020)
    (h2021 : H.getFullYear (utf16 "2021-06-01T12:00:00Z") = some 2021) :
    (processSnapshots H c scenarioData p).page.dateRange = some "2021 - 2020" ∧
      (applyFilters H c (processSnapshots H c scenarioData p).page).dateRange
        = some "2021 - 2020" := by
  have hd1 : parseTimestamp "20200101000000" = utf16 "2020-01-01T00:00:00Z" := by decide
  have hd2 : parseTimestamp "20210601120000" = utf16 "2021-06-01T12:00:00Z" := by decide
  simp [processSnapshots, scenarioData, Outcome.page, applyFilters, applySorting, renderTable,
    updateStats, populateYearFilter, toSnapshot, hd1, hd2, h2020, h2021, numberText]
  decide

theorem dateRange_scenario_witness :
    (processSnapshots utcHost defaultControls scenarioData Page.initial).page.dateRange
        = some "2021 - 2020" ∧
      (applyFilters utcHost defaultControls
        (processSnapshots utcHost defaultControls scenarioData Page.initial).page).dateRange
        = some "2021 - 2020" :=
  dateRange_scenario utcHost defaultControls Page.initial (by decide) (by decide)

/-! ## Cleaning of the target address -/

theorem stripScheme_unchanged (l : List Char)
    (hhttp : ¬ "http://".data <+: l) (hhttps : ¬ "https://".data <+: l) :
    stripScheme l = l := by
  unfold stripScheme
  rw [if_neg (by simpa using hhttps), if_neg (by simpa using hhttp)]

theorem stripScheme_http (l : List Char) : stripScheme ("http://".data ++ l) = l := by
  simp [stripScheme, List.isPrefixOf]

theorem stripScheme_https (l : List Char) : stripScheme ("https://".data ++ l) = l := by
  simp [stripScheme, List.isPrefixOf]

theorem stripTrailingSlash_of_ne (l : List Char) (h : l.getLast? ≠ some '/') :
    stripTrailingSlash l = l := by
  simp [stripTrailingSlash, h]

theorem stripTrailingSlash_concat (l : List Char) : stripTrailingSlash (l ++ ['/']) = l := by
  simp [stripTrailingSlash]

theorem concat_not_begun_by (p l : List Char) (a : Char) (hp : ¬ p <+: l)
    (hne : ∀ q, p = q ++ [a] → l ≠ q) : ¬ p <+: l ++ [a] := by
  intro h
  rcases Nat.lt_or_ge l.length p.length with hlt | hge
  · have hlen : (l ++ [a]).length ≤ p.length := by simpa using hlt
    have heq : p = l ++ [a] := h.eq_of_length_le hlen
    exact hne l heq rfl
  · exact hp (List.prefix_of_prefix_length_le h (List.prefix_append l [a]) hge)

/-- C7: for a text `s` that does not begin with `http://` or `https://` and
does not end with `/`, the cleaning step of `fetchWaybackData` maps each of
`s`, `s/`, `http://s`, `https://s`, `http://s/` and `https://s/` to `s`. -/
theorem cleanUrl_forms (s : String)
    (hhttp : ¬ "http://".data <+: s.data) (hhttps : ¬ "https://".data <+: s.data)
    (hslash : s.data.getLast? ≠ some '/') :
    cleanUrl s = s ∧ cleanUrl (s ++ "/") = s ∧
      cleanUrl ("http://" ++ s) = s ∧ cleanUrl ("https://" ++ s) = s ∧
      cleanUrl ("http://" ++ s ++ "/") = s ∧ cleanUrl ("https://" ++ s ++ "/") = s := by
  have hslash1 : ['/'] = "/".data := rfl
  have h1 : ¬ "http://".data <+: s.data ++ ['/'] := by
    apply concat_not_begun_by _ _ _ hhttp
    intro q hq hl
    have : q = "http:/".data := List.append_inj_left' (hq.symm.trans (by rfl)) rfl
    rw [hl, this] at hslash
    exact hslash (by decide)
  have h2 : ¬ "https://".data <+: s.data ++ ['/'] := by
    apply concat_not_begun_by _ _ _ hhttps
    intro q hq hl
    have : q = "https:/".data := List.append_inj_left' (hq.symm.trans (by rfl)) rfl
    rw [hl, this] at hslash
    exact hslash (by decide)
  refine ⟨?_, ?_, ?_, ?_, ?_, ?_⟩
  · rw [cleanUrl, stripScheme_unchanged _ hhttp hhttps, stripTrailingSlash_of_ne _ hslash]
  · rw [cleanUrl, String.data_append, ← hslash1, stripScheme_unchanged _ h1 h2,
      stripTrailingSlash_concat]
  · rw [cleanUrl, String.data_append, stripScheme_http, stripTrailingSlash_of_ne _ hslash]
  · rw [cleanUrl, String.data_append, stripScheme_https, stripTrailingSlash_of_ne _ hslash]
  · rw [cleanUrl, String.data_append, String.data_append, List.append_assoc, stripScheme_http,
      ← hslash1, stripTrailingSlash_concat]
  · rw [cleanUrl, String.data_append, String.data_append, List.append_assoc, stripScheme_https,
      ← hslash1, stripTrailingSlash_concat]

theorem cleanUrl_forms_witness :
    cleanUrl "example.com" = "example.com" ∧ cleanUrl ("example.com" ++ "/") = "example.com" ∧
      cleanUrl ("http://" ++ "example.com") = "example.com" ∧
      cleanUrl ("https://" ++ "example.com") = "example.com" ∧
      cleanUrl ("http://" ++ "example.com" ++ "/") = "example.com" ∧
      cleanUrl ("https://" ++ "example.com" ++ "/") = "example.com" :=
  cleanUrl_forms "example.com" (by decide) (by decide) (by decide)

/-- The scenario of the specification: `https://example.com/` is cleaned to
`example.com`. -/
theorem cleanUrl_scenario : cleanUrl "https://example.com/" = "example.com" := by
  decide

/-! ## The proxy's outcomes -/

/-- The outcomes of the `end` handler, by status and parsed body. -/
theorem onEnd_cases (statusCode : Nat) (parsed : Option Json) :
    ((onEnd statusCode parsed).isSuccess = true ↔
        statusCode = 200 ∧ ∃ items, parsed = some (.array items) ∧ 2 ≤ items.length) ∧
      (∀ items, statusCode = 200 → parsed = some (.array items) → 2 ≤ items.length →
        onEnd statusCode parsed = ⟨none, some (.array items)⟩) ∧
      (statusCode ≠ 200 →
        onEnd statusCode parsed = ⟨some ("API returned status " ++ toString statusCode), none⟩) ∧
      (statusCode = 200 → parsed = none →
        onEnd statusCode parsed = ⟨some "Invalid API response", none⟩) ∧
      (∀ result, statusCode = 200 → parsed = some result →
        ((∀ items, result ≠ .array items) ∨ ∃ items, result = .array items ∧ items.length < 2) →
        onEnd statusCode parsed = ⟨some "No snapshots found for this URL", none⟩) := by
  refine ⟨?_, ?_, ?_, ?_, ?_⟩
  · by_cases hs : statusCode = 200
    · subst hs
      cases parsed with
      | none => simp [onEnd, CallbackArgs.isSuccess]
      | some result =>
        cases result <;> simp [onEnd, CallbackArgs.isSuccess, Json.hasRows]
        rename_i items
        by_cases h : items.length < 2
        · simp [h]
        · simp [h, Nat.not_lt.mp h]
    · simp [onEnd, hs, CallbackArgs.isSuccess]
  · rintro items rfl rfl h
    simp [onEnd, Json.hasRows, h]
  · intro hs
    simp [onEnd, hs]
  · rintro rfl rfl
    simp [onEnd]
  · rintro result rfl rfl h
    rcases h with h | ⟨items, rfl, h⟩
    · cases result <;> simp [onEnd, Json.hasRows]
      exact absurd rfl (h _)
    · simp [onEnd, Json.hasRows, h]

theorem fetchWaybackData_ended (H : Host) (net : String → Upstream) (targetUrl : String)
    (statusCode : Nat) (parsed : Option Json)
    (hnet : net (apiUrl H targetUrl) = .ended statusCode parsed) :
    fetchWaybackData H net targetUrl = ([apiUrl H targetUrl], onEnd statusCode parsed) := by
  simp [fetchWaybackData, hnet]

/-- C5, amended: when the archive service answers the request with a status
and a body, `fetchWaybackData` calls back with no error and the parsed body
exactly when the status is 200 and the body parses to an array of at least 2
elements, whatever the elements are. Otherwise it calls back with an error and
no data: `API returned status <code>` on a status other than 200,
`Invalid API response` on a body that does not parse, and
`No snapshots found for this URL` on a parsed body that is not an array or has
fewer than 2 elements. -/
theorem fetchWaybackData_outcomes (H : Host) (net : String → Upstream) (targetUrl : String)
    (statusCode : Nat) (parsed : Option Json)
    (hnet : net (apiUrl H targetUrl) = .ended statusCode parsed) :
    ((fetchWaybackData H net targetUrl).2.isSuccess = true ↔
        statusCode = 200 ∧ ∃ items, parsed = some (.array items) ∧ 2 ≤ items.length) ∧
      (∀ items, statusCode = 200 → parsed = some (.array items) → 2 ≤ items.length →
        (fetchWaybackData H net targetUrl).2 = ⟨none, some (.array items)⟩) ∧
      (statusCode ≠ 200 →
        (fetchWaybackData H net targetUrl).2 =
          ⟨some ("API returned status " ++ toString statusCode), none⟩) ∧
      (statusCode = 200 → parsed = none →
        (fetchWaybackData H net targetUrl).2 = ⟨some "Invalid API response", none⟩) ∧
      (∀ result, statusCode = 200 → parsed = some result →
        ((∀ items, result ≠ .array items) ∨ ∃ items, result = .array items ∧ items.length < 2) →
        (fetchWaybackData H net targetUrl).2 =
          ⟨some "No snapshots found for this URL", none⟩) := by
  rw [fetchWaybackData_ended H net targetUrl statusCode parsed hnet]
  exact onEnd_cases statusCode parsed

theorem fetchWaybackData_outcomes_witness :
    ((fetchWaybackData utcHost (fun _ => .ended 404 none) "example.com").2.isSuccess = true ↔
        404 = 200 ∧ ∃ items, (none : Option Json) = some (.array items) ∧ 2 ≤ items.length) ∧
      (∀ items, 404 = 200 → (none : Option Json) = some (.array items) → 2 ≤ items.length →
        (fetchWaybackData utcHost (fun _ => .ended 404 none) "example.com").2 =
          ⟨none, some (.array items)⟩) ∧
      (404 ≠ 200 →
        (fetchWaybackData utcHost (fun _ => .ended 404 none) "example.com").2 =
          ⟨some ("API returned status " ++ toString 404), none⟩) ∧
      (404 = 200 → (none : Option Json) = none →
        (fetchWaybackData utcHost (fun _ => .ended 404 none) "example.com").2 =
          ⟨some "Invalid API response", none⟩) ∧
      (∀ result, 404 = 200 → (none : Option Json) = some result →
        ((∀ items, result ≠ .array items) ∨ ∃ items, result = .array items ∧ items.length < 2) →
        (fetchWaybackData utcHost (fun _ => .ended 404 none) "example.com").2 =
          ⟨some "No snapshots found for this URL", none⟩) :=
  fetchWaybackData_outcomes utcHost (fun _ => .ended 404 none) "example.com" 404 none rfl

/-- C5, counterexample: when the archive service answers with status 200 and
the body `[1,2]`, an array whose elements are not arrays, `fetchWaybackData`
calls back with no error and the parsed body. -/
theorem fetchWaybackData_array_of_numbers :
    (fetchWaybackData utcHost (fun _ => .ended 200 (some (.array [.number 1, .number 2])))
        "example.com").2.isSuccess = true ∧
      (fetchWaybackData utcHost (fun _ => .ended 200 (some (.array [.number 1, .number 2])))
        "example.com").2.error = none ∧
      (Json.array [.number 1, .number 2]).isArrayOfArrays = false := by
  decide

/-- C6, amended: on a `GET /api/snapshots` whose target address is missing or
is the empty text, the handler answers 400 `Missing URL parameter` and sends
nothing to the archive service; and on an input that is empty after trimming,
`handleSearch` shows `Please enter a URL` and sends no request to the
handler. -/
theorem empty_target_rejected (H : Host) (net : String → Upstream) (req : Request)
    (input : String)
    (hpath : req.pathname = "/api/snapshots") (hmethod : req.method = "GET")
    (hurl : req.queryUrl = none ∨ req.queryUrl = some "")
    (hinput : trim input = "") :
    handleRequest H net req = ⟨[], .json 400 (.error "Missing URL parameter")⟩ ∧
      (handleRequest H net req).outbound = [] ∧
      handleSearch H input = .rejected "Please enter a URL" := by
  have h1 : handleRequest H net req = ⟨[], .json 400 (.error "Missing URL parameter")⟩ := by
    rcases hurl with h | h <;> simp [handleRequest, hpath, hmethod, h, truthy]
  refine ⟨h1, by rw [h1], ?_⟩
  simp [handleSearch, hinput, truthy]

theorem empty_target_rejected_witness :
    handleRequest utcHost (fun _ => .failed "unreachable") ⟨"/api/snapshots", "GET", some ""⟩
        = ⟨[], .json 400 (.error "Missing URL parameter")⟩ ∧
      (handleRequest utcHost (fun _ => .failed "unreachable")
        ⟨"/api/snapshots", "GET", some ""⟩).outbound = [] ∧
      handleSearch utcHost "  \t " = .rejected "Please enter a URL" :=
  empty_target_rejected utcHost (fun _ => .failed "unreachable")
    ⟨"/api/snapshots", "GET", some ""⟩ "  \t " rfl rfl (Or.inr rfl) (by decide)

/-- C6, counterexample: the address of one space is empty after trimming, and
the handler passes it to `fetchWaybackData`, which sends a request to the
archive service. -/
theorem blank_target_forwarded :
    trim " " = "" ∧
      (handleRequest utcHost (fun _ => .failed "unreachable")
        ⟨"/api/snapshots", "GET", some " "⟩).outbound =
        ["http://web.archive.org/cdx/search/cdx?url=%20&output=json&fl=timestamp,original,statuscode,mimetype&limit=1000"] := by
  decide

/-! ## Filtering -/

theorem includesChars_iff (hay needle : List Char) :
    includesChars hay needle = true ↔ needle <:+: hay := by
  induction hay with
  | nil => simp [includesChars]
  | cons c cs ih =>
    simp only [includesChars, Bool.or_eq_true, ih, List.infix_cons_iff,
      List.isPrefixOf_iff_prefix]

theorem string_eq_empty_iff (s : String) : s = "" ↔ s.data = [] := by
  constructor
  · rintro rfl
    rfl
  · intro h
    cases s
    simp_all

theorem keeps_iff (H : Host) (c : Controls) (r : Snapshot) :
    keeps H c.statusValue c.yearValue (trim (H.toLowerCase c.searchInput)) r = true ↔
      Passes H c r := by
  unfold keeps Passes searchValue
  simp only [truthy, includes, string_eq_empty_iff, ← includesChars_iff]
  by_cases h1 : c.statusValue = "all" <;> by_cases h2 : c.yearValue = utf16 "all" <;>
    by_cases h3 : r.statuscode = c.statusValue <;> by_cases h4 : r.year = c.yearValue <;>
    by_cases h5 : (trim (H.toLowerCase c.searchInput)).data = [] <;>
    simp [h1, h2, h3, h4, h5]

/-- C1, amended: after `applyFilters` the view set holds exactly the records
of the full set that pass all active predicates, each as often as it occurs in
the full set and no other record: `statuscode` equal to the status value
unless that is `all`, `year` equal to the year value unless that is `all`, and
the lower-cased original URL containing the lower-cased and trimmed search
text unless that trimmed text is empty. -/
theorem applyFilters_view (H : Host) (c : Controls) (p : Page) :
    (applyFilters H c p).filteredSnapshots.Perm
        (p.allSnapshots.filter (fun r => decide (Passes H c r))) ∧
      ∀ r, (applyFilters H c p).filteredSnapshots.count r =
        if Passes H c r then p.allSnapshots.count r else 0 := by
  have hfilter : p.allSnapshots.filter
      (keeps H c.statusValue c.yearValue (trim (H.toLowerCase c.searchInput))) =
      p.allSnapshots.filter (fun r => decide (Passes H c r)) := by
    apply List.filter_congr
    intro r _
    rw [Bool.eq_iff_iff, decide_eq_true_iff]
    exact keeps_iff H c r
  have hperm : (applyFilters H c p).filteredSnapshots.Perm
      (p.allSnapshots.filter (fun r => decide (Passes H c r))) := by
    rw [applyFilters_filteredSnapshots, hfilter]
    exact sortWith_perm _ _
  refine ⟨hperm, fun r => ?_⟩
  rw [hperm.count_eq]
  by_cases h : Passes H c r
  · rw [if_pos h, List.count_filter (by simpa using h)]
  · rw [if_neg h]
    apply List.count_eq_zero_of_not_mem
    simp [List.mem_filter, h]

/-- The scenario of the specification: on the two-record set, status `404`
leaves exactly the record of 20210601120000, and status `500` leaves none. -/
theorem applyFilters_scenario :
    (applyFilters utcHost ⟨"404", utf16 "all", "", "newest"⟩ scenarioPage).filteredSnapshots.map
        (fun r => r.timestamp) = ["20210601120000"] ∧
      (applyFilters utcHost ⟨"500", utf16 "all", "", "newest"⟩ scenarioPage).filteredSnapshots = [] := by
  decide

/-- C1, counterexample: with the search text of one space and no other filter,
no record of the two-record set passes the predicates as the specification words them
(no URL contains a space), and `applyFilters` keeps both records. -/
theorem applyFilters_blank_search :
    (applyFilters utcHost ⟨"all", utf16 "all", " ", "newest"⟩ scenarioPage).filteredSnapshots.map
        (fun r => r.timestamp) = ["20210601120000", "20200101000000"] ∧
      ∀ r ∈ scenarioPage.allSnapshots, ¬ StatedPasses utcHost ⟨"all", utf16 "all", " ", "newest"⟩ r := by
  decide

/-! ## Sorting -/

theorem orderedInsert_congr {α : Type} (r r' : α → α → Prop) [DecidableRel r] [DecidableRel r']
    (a : α) (l : List α) (h : ∀ b ∈ l, r a b ↔ r' a b) :
    l.orderedInsert r a = l.orderedInsert r' a := by
  induction l with
  | nil => rfl
  | cons b l ih =>
    have hb : r a b ↔ r' a b := h b (List.mem_cons_self b l)
    have hl : ∀ x ∈ l, r a x ↔ r' a x := fun x hx => h x (List.mem_cons_of_mem b hx)
    by_cases hr : r a b
    · simp [List.orderedInsert, hr, hb.mp hr]
    · simp [List.orderedInsert, hr, mt hb.mpr hr, ih hl]

theorem insertionSort_congr {α : Type} (r r' : α → α → Prop) [DecidableRel r] [DecidableRel r']
    (l : List α) (h : ∀ a ∈ l, ∀ b ∈ l, r a b ↔ r' a b) :
    l.insertionSort r = l.insertionSort r' := by
  induction l with
  | nil => rfl
  | cons a l ih =>
    have hl : ∀ x ∈ l, ∀ y ∈ l, r x y ↔ r' x y :=
      fun x hx y hy => h x (List.mem_cons_of_mem a hx) y (List.mem_cons_of_mem a hy)
    simp only [List.insertionSort, ih hl]
    apply orderedInsert_congr
    intro b hb
    exact h a (List.mem_cons_self a l) b
      (List.mem_cons_of_mem a ((List.mem_insertionSort r').mp hb))

theorem insertionSort_filter_eq {α : Type} (r : α → α → Prop) [DecidableRel r]
    (q : α → Bool) (l : List α) (hq : ∀ a ∈ l, ∀ b ∈ l, q a = true → q b = true → r a b) :
    (l.insertionSort r).filter q = l.filter q := by
  have hpair : (l.filter q).Pairwise r := by
    have hall : ∀ a ∈ l.filter q, ∀ b ∈ l.filter q, r a b := by
      intro a ha b hb
      rw [List.mem_filter] at ha hb
      exact hq a ha.1 b hb.1 ha.2 hb.2
    exact List.pairwise_of_forall_mem_list hall
  have hsub : (l.filter q).Sublist (l.insertionSort r) :=
    List.sublist_insertionSort hpair (List.filter_sublist l)
  have hsub2 : (l.filter q).Sublist ((l.insertionSort r).filter q) := by
    have := hsub.filter q
    simpa [List.filter_filter] using this
  have hlen : ((l.insertionSort r).filter q).length = (l.filter q).length :=
    ((List.perm_insertionSort r l).filter q).length_eq
  exact (hsub2.eq_of_length hlen.symm).symm
theorem codeUnitCompare_spec (a b : String) :
    (codeUnitCompare a b < 0 ↔ utf16 a < utf16 b) ∧
      (codeUnitCompare a b = 0 ↔ utf16 a = utf16 b) := by
  unfold codeUnitCompare
  by_cases h : utf16 a < utf16 b
  · simp [h, ne_of_lt h]
  · by_cases he : utf16 a = utf16 b
    · simp [he]
    · simp [h, he]

theorem utcHost_collates (view : List Snapshot) : CollatesByCodeUnits utcHost view :=
  fun a _ b _ => codeUnitCompare_spec a.timestamp b.timestamp

theorem comparator_le_iff (H : Host) (view : List Snapshot)
    (hcol : CollatesByCodeUnits H view) (a b : Snapshot) (ha : a ∈ view) (hb : b ∈ view) :
    H.localeCompare a.timestamp b.timestamp ≤ 0 ↔ utf16 a.timestamp ≤ utf16 b.timestamp := by
  obtain ⟨h1, h2⟩ := hcol a ha b hb
  rw [le_iff_lt_or_eq, h1, h2, le_iff_lt_or_eq]

theorem sorted_by_timestamp_desc (l : List Snapshot) :
    (l.insertionSort (fun a b => utf16 b.timestamp ≤ utf16 a.timestamp)).Sorted
      (fun a b => utf16 b.timestamp ≤ utf16 a.timestamp) := by
  haveI : IsTotal Snapshot (fun a b => utf16 b.timestamp ≤ utf16 a.timestamp) :=
    ⟨fun a b => le_total (utf16 b.timestamp) (utf16 a.timestamp)⟩
  haveI : IsTrans Snapshot (fun a b => utf16 b.timestamp ≤ utf16 a.timestamp) :=
    ⟨fun _ _ _ h1 h2 => le_trans h2 h1⟩
  exact List.sorted_insertionSort _ l

theorem sorted_by_timestamp_asc (l : List Snapshot) :
    (l.insertionSort (fun a b => utf16 a.timestamp ≤ utf16 b.timestamp)).Sorted
      (fun a b => utf16 a.timestamp ≤ utf16 b.timestamp) := by
  haveI : IsTotal Snapshot (fun a b => utf16 a.timestamp ≤ utf16 b.timestamp) :=
    ⟨fun a b => le_total (utf16 a.timestamp) (utf16 b.timestamp)⟩
  haveI : IsTrans Snapshot (fun a b => utf16 a.timestamp ≤ utf16 b.timestamp) :=
    ⟨fun _ _ _ h1 h2 => le_trans h1 h2⟩
  exact List.sorted_insertionSort _ l

theorem sortWith_newest (H : Host) (view : List Snapshot)
    (hcol : CollatesByCodeUnits H view) :
    sortWith (sortComparator H "newest") view =
      view.insertionSort (fun a b => utf16 b.timestamp ≤ utf16 a.timestamp) := by
  unfold sortWith
  apply insertionSort_congr
  intro a ha b hb
  simp only [sortComparator, if_true]
  exact comparator_le_iff H view hcol b a hb ha

theorem sortWith_oldest (H : Host) (view : List Snapshot)
    (hcol : CollatesByCodeUnits H view) :
    sortWith (sortComparator H "oldest") view =
      view.insertionSort (fun a b => utf16 a.timestamp ≤ utf16 b.timestamp) := by
  unfold sortWith
  apply insertionSort_congr
  intro a ha b hb
  have hne : ¬ ("oldest" = "newest") := by decide
  simp only [sortComparator, if_neg hne, if_true]
  exact comparator_le_iff H view hcol a b ha hb

/-- C2, amended: on a view set whose timestamps the host collates in the
lexicographic order of their code units, `applySorting` leaves a rearrangement
of the same records; in mode `newest` every adjacent pair `(a, b)` of it has
`a.timestamp ≥ b.timestamp` in that order, in mode `oldest` every adjacent
pair has `a.timestamp ≤ b.timestamp`, and in both modes the records of any one
timestamp stand in the order they had before. -/
theorem applySorting_stable_sort (H : Host) (c : Controls) (p : Page)
    (hcol : CollatesByCodeUnits H p.filteredSnapshots) :
    (applySorting H c p).filteredSnapshots.Perm p.filteredSnapshots ∧
      (applySorting H { c with sortValue := "newest" } p).filteredSnapshots.Chain'
        (fun a b => utf16 a.timestamp ≥ utf16 b.timestamp) ∧
      (applySorting H { c with sortValue := "oldest" } p).filteredSnapshots.Chain'
        (fun a b => utf16 a.timestamp ≤ utf16 b.timestamp) ∧
      (∀ t, (applySorting H { c with sortValue := "newest" } p).filteredSnapshots.filter
          (fun r => r.timestamp = t) = p.filteredSnapshots.filter (fun r => r.timestamp = t)) ∧
      (∀ t, (applySorting H { c with sortValue := "oldest" } p).filteredSnapshots.filter
          (fun r => r.timestamp = t) = p.filteredSnapshots.filter (fun r => r.timestamp = t)) := by
  simp only [applySorting_filteredSnapshots]
  refine ⟨sortWith_perm _ _, ?_, ?_, ?_, ?_⟩
  · rw [sortWith_newest H _ hcol]
    exact (sorted_by_timestamp_desc _).chain'
  · rw [sortWith_oldest H _ hcol]
    exact (sorted_by_timestamp_asc _).chain'
  · intro t
    rw [sortWith_newest H _ hcol]
    apply insertionSort_filter_eq
    intro a _ b _ ha hb
    simp only [decide_eq_true_eq] at ha hb
    exact le_of_eq (congrArg utf16 (hb.trans ha.symm))
  · intro t
    rw [sortWith_oldest H _ hcol]
    apply insertionSort_filter_eq
    intro a _ b _ ha hb
    simp only [decide_eq_true_eq] at ha hb
    exact le_of_eq (congrArg utf16 (ha.trans hb.symm))

theorem applySorting_stable_sort_witness :
    (applySorting utcHost defaultControls tiedPage).filteredSnapshots.Perm
        tiedPage.filteredSnapshots ∧
      (applySorting utcHost { defaultControls with sortValue := "newest" }
        tiedPage).filteredSnapshots.Chain' (fun a b => utf16 a.timestamp ≥ utf16 b.timestamp) ∧
      (applySorting utcHost { defaultControls with sortValue := "oldest" }
        tiedPage).filteredSnapshots.Chain' (fun a b => utf16 a.timestamp ≤ utf16 b.timestamp) ∧
      (∀ t, (applySorting utcHost { defaultControls with sortValue := "newest" }
          tiedPage).filteredSnapshots.filter (fun r => r.timestamp = t) =
        tiedPage.filteredSnapshots.filter (fun r => r.timestamp = t)) ∧
      (∀ t, (applySorting utcHost { defaultControls with sortValue := "oldest" }
          tiedPage).filteredSnapshots.filter (fun r => r.timestamp = t) =
        tiedPage.filteredSnapshots.filter (fun r => r.timestamp = t)) :=
  applySorting_stable_sort utcHost defaultControls tiedPage
    (utcHost_collates tiedPage.filteredSnapshots)

/-- The scenario of the specification: `newest` puts the record of
20210601120000 first. -/
theorem applySorting_scenario :
    scenarioUnsorted.filteredSnapshots.map (fun r => r.timestamp)
        = ["20200101000000", "20210601120000"] ∧
      (applySorting utcHost defaultControls scenarioUnsorted).filteredSnapshots.map
        (fun r => r.timestamp) = ["20210601120000", "20200101000000"] := by
  decide

/-- Sorting with ties: of four captures, two at each of two times, `newest` and
`oldest` each put the two times in their order and leave the two captures of
one time in the order of the view set before. -/
theorem applySorting_ties :
    tiedPage.filteredSnapshots.map (fun r => (r.timestamp, r.statuscode))
        = [("20210601120000", "404"), ("20200101000000", "200"),
           ("20210601120000", "200"), ("20200101000000", "301")] ∧
      (applySorting utcHost { defaultControls with sortValue := "newest" }
        tiedPage).filteredSnapshots.map (fun r => (r.timestamp, r.statuscode))
        = [("20210601120000", "404"), ("20210601120000", "200"),
           ("20200101000000", "200"), ("20200101000000", "301")] ∧
      (applySorting utcHost { defaultControls with sortValue := "oldest" }
        tiedPage).filteredSnapshots.map (fun r => (r.timestamp, r.statuscode))
        = [("20200101000000", "200"), ("20200101000000", "301"),
           ("20210601120000", "404"), ("20210601120000", "200")] := by
  decide

theorem not_b_le_B : ¬ utf16 "b" ≤ utf16 "B" := by
  decide

/-- C2, counterexample: three records with the timestamps `b`, `B` and `a`, on
a host that collates letters before their case. `oldest` leaves `a`, `b`, `B`
and `newest` leaves `B`, `b`, `a`; the adjacent pair of `b` and `B` is out of
lexicographic order in both, `B` being the smaller text. -/
theorem applySorting_letters :
    (applySorting localeHost { unsortedControls with sortValue := "oldest" }
        lettersPage).filteredSnapshots.map (fun r => r.timestamp) = ["a", "b", "B"] ∧
      ¬ (applySorting localeHost { unsortedControls with sortValue := "oldest" }
        lettersPage).filteredSnapshots.Chain' (fun a b => utf16 a.timestamp ≤ utf16 b.timestamp) ∧
      (applySorting localeHost { unsortedControls with sortValue := "newest" }
        lettersPage).filteredSnapshots.map (fun r => r.timestamp) = ["B", "b", "a"] ∧
      ¬ (applySorting localeHost { unsortedControls with sortValue := "newest" }
        lettersPage).filteredSnapshots.Chain' (fun a b => utf16 a.timestamp ≥ utf16 b.timestamp) := by
  have hold : (applySorting localeHost { unsortedControls with sortValue := "oldest" }
      lettersPage).filteredSnapshots.map (fun r => r.timestamp) = ["a", "b", "B"] := by decide
  have hnew : (applySorting localeHost { unsortedControls with sortValue := "newest" }
      lettersPage).filteredSnapshots.map (fun r => r.timestamp) = ["B", "b", "a"] := by decide
  refine ⟨hold, ?_, hnew, ?_⟩
  · intro h
    have h2 : List.Chain' (fun x y : String => utf16 x ≤ utf16 y)
        ((applySorting localeHost { unsortedControls with sortValue := "oldest" }
          lettersPage).filteredSnapshots.map (fun r => r.timestamp)) :=
      (List.chain'_map _).mpr h
    rw [hold] at h2
    simp only [List.chain'_cons, List.chain'_singleton, and_true] at h2
    exact not_b_le_B h2.2
  · intro h
    have h2 : List.Chain' (fun x y : String => utf16 x ≥ utf16 y)
        ((applySorting localeHost { unsortedControls with sortValue := "newest" }
          lettersPage).filteredSnapshots.map (fun r => r.timestamp)) :=
      (List.chain'_map _).mpr h
    rw [hnew] at h2
    simp only [List.chain'_cons, List.chain'_singleton, and_true] at h2
    exact not_b_le_B h2.1

end Wayback
